import Mathlib

/-
  Verification of the stock-analysis agent pipeline
  (agents/analysis_agent.py and agents/data_collector_agent.py).

  The embedding models:
  * the Python string scraping used to extract recommendation/confidence
    from the text-generation reply (str.upper, str.find, slicing, strip, `in`);
  * the pandas technical-indicator computation (rolling means, RSI-14,
    trend label), with IEEE-754 special values (inf/NaN) represented
    explicitly over exact rationals;
  * the chart-data assembly joining the price series with the MA columns
    by date;
  * the two stage bodies (`process`) with external collaborators
    (providers, text-generation service) passed in as parameters, plus a
    record of which collaborators were actually invoked.
-/

namespace StockAnalysis

/- ===== IEEE-754 style extended values over exact rationals =====
   Python/pandas arithmetic on float series produces `inf` when a positive
   number is divided by zero and `nan` for 0/0; `nan` propagates. We model
   the float values flowing through the RSI formula by rationals extended
   with these special values. -/

inductive FVal where
  | nan : FVal
  | inf : FVal
  | ninf : FVal
  | val (q : ℚ) : FVal
deriving DecidableEq

def FVal.neg : FVal → FVal
  | nan => nan
  | inf => ninf
  | ninf => inf
  | val q => val (-q)

def FVal.add : FVal → FVal → FVal
  | nan, _ => nan
  | _, nan => nan
  | inf, ninf => nan
  | ninf, inf => nan
  | inf, _ => inf
  | _, inf => inf
  | ninf, _ => ninf
  | _, ninf => ninf
  | val a, val b => val (a + b)

def FVal.sub (a b : FVal) : FVal := FVal.add a (FVal.neg b)

/- Division. ℚ has a single zero, so the IEEE signed-zero distinction is
   dropped: finite / ±inf is 0, and a nonzero finite value divided by zero
   gets the sign of the numerator. -/
def FVal.div : FVal → FVal → FVal
  | nan, _ => nan
  | _, nan => nan
  | inf, inf => nan
  | inf, ninf => nan
  | ninf, inf => nan
  | ninf, ninf => nan
  | inf, val b => if b < 0 then ninf else inf
  | ninf, val b => if b < 0 then inf else ninf
  | val _, inf => val 0
  | val _, ninf => val 0
  | val a, val b =>
      if b = 0 then (if a = 0 then nan else if 0 < a then inf else ninf)
      else val (a / b)

/-- Whether a float-like value is a finite number within `[lo, hi]`. -/
def FVal.inRange (v : FVal) (lo hi : ℚ) : Bool :=
  match v with
  | FVal.val q => decide (lo ≤ q ∧ q ≤ hi)
  | _ => false

/- ===== Python string primitives over `List Char` ===== -/

/-- Python `str.upper()` (the replies at stake are ASCII). -/
def toUpperL (l : List Char) : List Char := l.map Char.toUpper

/-- `leadsWith pat l` holds when `pat` is an initial segment of `l`. -/
def leadsWith : List Char → List Char → Bool
  | [], _ => true
  | _ :: _, [] => false
  | p :: ps, h :: hs => if p = h then leadsWith ps hs else false

def findSubAux (pat : List Char) : List Char → ℕ → Option ℕ
  | [], i => if leadsWith pat [] then some i else none
  | c :: t, i => if leadsWith pat (c :: t) then some i else findSubAux pat t (i + 1)

/-- Python `hay.find(pat)`: index of the first occurrence, `none` if absent. -/
def findSub? (hay pat : List Char) : Option ℕ := findSubAux pat hay 0

/-- Python `pat in hay` (consistent with `find`). -/
def containsSub (hay pat : List Char) : Bool := (findSub? hay pat).isSome

def isPySpace (c : Char) : Bool :=
  c = ' ' || c = '\t' || c = '\n' || c = '\x0d' || c = '\x0b' || c = '\x0c'

/-- Python `str.strip()`: remove leading and trailing whitespace. -/
def pyStrip (l : List Char) : List Char :=
  ((l.dropWhile isPySpace).reverse.dropWhile isPySpace).reverse

/- ===== Recommendation / confidence extraction =====
   Mirrors the parsing block of AnalysisAgent.process: the case-folded
   reply is searched for each header spelling in order; at the first
   match the next 100 (resp. 50) characters are taken, stripped, and the
   keywords are tested for membership in the first 30 (resp. 15)
   characters, in the fixed order of the Python if/elif chain. -/

def recPat1 : List Char := "RECOMMENDATION:".toList
def recPat2 : List Char := "**RECOMMENDATION:**".toList
def recPat3 : List Char := "RECOMMENDATION".toList

def recKeyOf (part : List Char) : Option String :=
  if containsSub (part.take 30) "BUY".toList then some "BUY"
  else if containsSub (part.take 30) "SELL".toList then some "SELL"
  else if containsSub (part.take 30) "HOLD".toList then some "HOLD"
  else none

def tryRecPattern (analysis pattern : List Char) : Option String :=
  match findSub? (toUpperL analysis) (toUpperL pattern) with
  | some idx => recKeyOf (pyStrip ((analysis.drop (idx + pattern.length)).take 100))
  | none => none

def extractRecommendation (analysis : List Char) : String :=
  match tryRecPattern analysis recPat1 with
  | some r => r
  | none =>
    match tryRecPattern analysis recPat2 with
    | some r => r
    | none =>
      match tryRecPattern analysis recPat3 with
      | some r => r
      | none => "HOLD"

def confPat1 : List Char := "CONFIDENCE:".toList
def confPat2 : List Char := "**CONFIDENCE:**".toList
def confPat3 : List Char := "CONFIDENCE".toList

def confKeyOf (part : List Char) : Option String :=
  if containsSub (part.take 15) "HIGH".toList then some "HIGH"
  else if containsSub (part.take 15) "MEDIUM".toList then some "MEDIUM"
  else if containsSub (part.take 15) "LOW".toList then some "LOW"
  else none

def tryConfPattern (analysis pattern : List Char) : Option String :=
  match findSub? (toUpperL analysis) (toUpperL pattern) with
  | some idx => confKeyOf (pyStrip ((analysis.drop (idx + pattern.length)).take 50))
  | none => none

def extractConfidence (analysis : List Char) : String :=
  match tryConfPattern analysis confPat1 with
  | some r => r
  | none =>
    match tryConfPattern analysis confPat2 with
    | some r => r
    | none =>
      match tryConfPattern analysis confPat3 with
      | some r => r
      | none => "LOW"

/-- Modelled from the spec claim wording, for comparison with the code:
among BUY/SELL/HOLD, the keyword whose first occurrence within the first
30 characters of the (stripped) window comes earliest in position wins. -/
def earlierCand : Option (ℕ × String) → Option (ℕ × String) → Option (ℕ × String)
  | none, b => b
  | a, none => a
  | some (i, r), some (j, s) => if j < i then some (j, s) else some (i, r)

def firstKeywordSpec (part : List Char) : Option String :=
  let w := part.take 30
  let tag := fun (k : String) => (findSub? w k.toList).map (fun i => (i, k))
  (earlierCand (earlierCand (tag "BUY") (tag "SELL")) (tag "HOLD")).map Prod.snd

def tryRecPatternFirst (analysis pattern : List Char) : Option String :=
  match findSub? (toUpperL analysis) (toUpperL pattern) with
  | some idx => firstKeywordSpec (pyStrip ((analysis.drop (idx + pattern.length)).take 100))
  | none => none

def extractRecommendationFirst (analysis : List Char) : String :=
  match tryRecPatternFirst analysis recPat1 with
  | some r => r
  | none =>
    match tryRecPatternFirst analysis recPat2 with
    | some r => r
    | none =>
      match tryRecPatternFirst analysis recPat3 with
      | some r => r
      | none => "HOLD"

/- ===== Technical indicators ===== -/

def meanQ (l : List ℚ) : ℚ := l.sum / (l.length : ℚ)

/-- The last `k` elements of a list. -/
def lastK (k : ℕ) (l : List α) : List α := l.drop (l.length - k)

/-- pandas `Series.rolling(window := k).mean()`: entry `i` is the mean of the
`k` elements ending at `i`, or NaN (modelled `none`) while the window has
not filled. -/
def rollingMean (k : ℕ) (xs : List ℚ) : List (Option ℚ) :=
  (List.range xs.length).map fun i =>
    if k ≤ i + 1 then some (meanQ ((xs.drop (i + 1 - k)).take k)) else none

/-- Day-over-day close deltas, `Series.diff()` without its leading NaN. -/
def deltasOf (closes : List ℚ) : List ℚ :=
  List.zipWith (fun a b => a - b) closes.tail closes

/-- `delta.where(delta > 0, 0)`: the leading NaN of `diff` compares false
and is replaced by 0, hence the `0 ::`. -/
def gainList (closes : List ℚ) : List ℚ :=
  0 :: (deltasOf closes).map fun d => if 0 < d then d else 0

/-- `-delta.where(delta < 0, 0)`. -/
def lossList (closes : List ℚ) : List ℚ :=
  0 :: (deltasOf closes).map fun d => if d < 0 then -d else 0

/-- `avg_gain.iloc[-1]`: last entry of the 14-period rolling mean of gains. -/
def latestAvgGain (closes : List ℚ) : Option ℚ :=
  (rollingMean 14 (gainList closes)).getLastD none

def latestAvgLoss (closes : List ℚ) : Option ℚ :=
  (rollingMean 14 (lossList closes)).getLastD none

/-- `100 - (100 / (1 + rs))` over float-like values. -/
def rsiFromRS (rs : FVal) : FVal :=
  FVal.sub (FVal.val 100) (FVal.div (FVal.val 100) (FVal.add (FVal.val 1) rs))

/-- `df['RSI'].iloc[-1]` with `rs = avg_gain / avg_loss`; a NaN average
(window not filled) propagates. -/
def latestRSI (closes : List ℚ) : FVal :=
  match latestAvgGain closes, latestAvgLoss closes with
  | some g, some l => rsiFromRS (FVal.div (FVal.val g) (FVal.val l))
  | _, _ => FVal.nan

/-- Float comparison `a > b` where `b` may be NaN (`none`): any comparison
with NaN is false. -/
def gtOpt (a : ℚ) (b : Option ℚ) : Bool :=
  match b with
  | some m => decide (m < a)
  | none => false

structure TechIndicators where
  latest_close : ℚ
  ma20_signal : String
  ma50_signal : String
  rsi : FVal
  trend : String
deriving DecidableEq

inductive TechResult where
  | ok (t : TechIndicators)
  | insufficient (error : String)
deriving DecidableEq

/-- The `len(df) >= 50` branch of AnalysisAgent.process computing the
technical-analysis summary, else the error placeholder. -/
def computeTechnical (closes : List ℚ) : TechResult :=
  if 50 ≤ closes.length then
    TechResult.ok
      { latest_close := closes.getLastD 0
        ma20_signal :=
          if gtOpt (closes.getLastD 0) ((rollingMean 20 closes).getLastD none)
          then "above" else "below"
        ma50_signal :=
          if gtOpt (closes.getLastD 0) ((rollingMean 50 closes).getLastD none)
          then "above" else "below"
        rsi := latestRSI closes
        trend :=
          if meanQ ((lastK 20 closes).take 10) < meanQ (lastK 10 closes)
          then "uptrend" else "downtrend" }
  else TechResult.insufficient "Not enough data points for technical analysis"

/- ===== Chart data assembly ===== -/

structure PricePoint where
  date : ℕ
  close : ℚ
  volume : ℤ
deriving DecidableEq

structure ChartPoint where
  date : ℕ
  close : ℚ
  volume : ℤ
  ma20 : Option ℚ
  ma50 : Option ℚ
deriving DecidableEq

def findIdxAux (p : α → Bool) : List α → ℕ → Option ℕ
  | [], _ => none
  | x :: xs, i => if p x then some i else findIdxAux p xs (i + 1)

/-- `df[df["Date"] == d].index` followed by `idx[0]`: index of the first
row whose date equals `d`. -/
def findIdxQ (p : α → Bool) (l : List α) : Option ℕ := findIdxAux p l 0

/-- The `if not idx.empty and not pd.isna(...)` lookup: the MA value at the
first row matching the date, with NaN (`none`) meaning the key is omitted. -/
def lookupMA (dates : List ℕ) (col : List (Option ℚ)) (d : ℕ) : Option ℚ :=
  match findIdxQ (fun x => decide (x = d)) dates with
  | some j => col.getD j none
  | none => none

/-- `"MA20" in df.columns`: the MA columns exist exactly when the 50-point
branch ran. -/
def chartColumns (closes : List ℚ) : Option (List (Option ℚ) × List (Option ℚ)) :=
  if 50 ≤ closes.length then some (rollingMean 20 closes, rollingMean 50 closes)
  else none

def buildChartData (rows : List PricePoint) : List ChartPoint :=
  rows.map fun row =>
    { date := row.date
      close := row.close
      volume := row.volume
      ma20 :=
        match chartColumns (rows.map PricePoint.close) with
        | some (m, _) => lookupMA (rows.map PricePoint.date) m row.date
        | none => none
      ma50 :=
        match chartColumns (rows.map PricePoint.close) with
        | some (_, m) => lookupMA (rows.map PricePoint.date) m row.date
        | none => none }

/- ===== Analysis stage ===== -/

structure AnalysisInput where
  success : Bool
  symbol : String
  period : String
  period_description : String
  /-- `input_data['historical_data']['data']` -/
  historical_data : List PricePoint
  /-- `input_data['chart_data']`, the collector's alias of the same series -/
  chart_data : List PricePoint
deriving DecidableEq

structure AnalysisResult where
  symbol : String
  period : String
  period_description : String
  analysis : List Char
  recommendation : String
  confidence : String
  technical_indicators : TechResult
  chart_data : List ChartPoint
deriving DecidableEq

inductive AnalysisOutcome where
  | ok (r : AnalysisResult)
  | err (error : String)
deriving DecidableEq

def AnalysisOutcome.isOk : AnalysisOutcome → Bool
  | ok _ => true
  | err _ => false

def AnalysisOutcome.techOf : AnalysisOutcome → Option TechResult
  | ok r => some r.technical_indicators
  | err _ => none

/-- AnalysisAgent.process. The text-generation reply is a parameter
(`llmReply`); the returned Bool records whether the service was invoked.
Exceptions raised by the validation checks are caught at the stage
boundary and become the error envelope, exactly as in the source. The
company-info/news/fundamentals pass-through fields and the timestamp do
not affect any verified behaviour and are omitted from the result record. -/
def processAnalysis (input : AnalysisInput) (llmReply : List Char) :
    AnalysisOutcome × Bool :=
  if input.success then
    let historical :=
      if input.historical_data.isEmpty && !input.chart_data.isEmpty
      then input.chart_data else input.historical_data
    if historical.isEmpty then
      (AnalysisOutcome.err "No historical data available for analysis", false)
    else
      let closes := historical.map PricePoint.close
      (AnalysisOutcome.ok
        { symbol := input.symbol
          period := input.period
          period_description := input.period_description
          analysis := llmReply
          recommendation := extractRecommendation llmReply
          confidence := extractConfidence llmReply
          technical_indicators := computeTechnical closes
          chart_data := buildChartData historical }, true)
  else (AnalysisOutcome.err "Invalid input data", false)

/- ===== Collection stage ===== -/

/-- The provider response of `fetch_stock_data(symbol, period)`. -/
structure FetchResult where
  success : Bool
  data : List PricePoint
  info : String
  source : String
  error : String
deriving DecidableEq

structure CollectorResult where
  symbol : String
  period : String
  period_description : String
  historical_data : FetchResult
  news : List String
  fundamentals : String
  data_insights : List Char
  chart_data : List PricePoint
  company_info : String
deriving DecidableEq

inductive CollectorOutcome where
  | ok (r : CollectorResult)
  | err (error : String)
deriving DecidableEq

def CollectorOutcome.isOk : CollectorOutcome → Bool
  | ok _ => true
  | err _ => false

/-- Which collaborators the stage actually invoked. -/
structure CollectorCalls where
  fetchedNews : Bool
  fetchedFundamentals : Bool
  calledOllama : Bool
deriving DecidableEq

/-- DataCollectorAgent.process. The provider outputs (price fetch, news,
fundamentals) and the text-generation reply are parameters; `periodTable`
models the external TIME_PERIODS mapping. -/
def processCollector (symbol period : String) (periodTable : List (String × String))
    (priceResult : FetchResult) (news : List String) (fundamentals : String)
    (llmReply : List Char) : CollectorOutcome × CollectorCalls :=
  if symbol = "" then
    (CollectorOutcome.err "Stock symbol is required", ⟨false, false, false⟩)
  else
    let period := if (periodTable.map Prod.fst).contains period then period else "1y"
    if priceResult.success then
      (CollectorOutcome.ok
        { symbol := symbol
          period := period
          period_description :=
            ((periodTable.find? (fun p => p.1 = period)).map Prod.snd).getD ""
          historical_data := priceResult
          news := news
          fundamentals := fundamentals
          data_insights := llmReply
          chart_data := priceResult.data
          company_info := priceResult.info }, ⟨true, true, true⟩)
    else (CollectorOutcome.err priceResult.error, ⟨false, false, false⟩)

/-- `seg` occurs as a contiguous segment of `l`. -/
def Within (seg l : List Char) : Prop := ∃ s t, l = s ++ seg ++ t

/- ===== Lemmas about the string primitives ===== -/

theorem leadsWith_iff (pat : List Char) : ∀ l, leadsWith pat l = true ↔ ∃ u, l = pat ++ u := by
  induction pat with
  | nil => intro l; simp [leadsWith]
  | cons p ps ih =>
    intro l
    cases l with
    | nil =>
      simp only [leadsWith, List.cons_append]
      constructor
      · intro h; cases h
      · rintro ⟨u, hu⟩; cases hu
    | cons h hs =>
      by_cases hp : p = h
      · subst hp
        have he : leadsWith (p :: ps) (p :: hs) = leadsWith ps hs := by
          simp [leadsWith]
        rw [he, ih hs]
        constructor
        · rintro ⟨u, hu⟩; exact ⟨u, by simp [hu]⟩
        · rintro ⟨u, hu⟩
          injection hu with _ h2
          exact ⟨u, h2⟩
      · simp only [leadsWith, if_neg hp, List.cons_append, List.cons.injEq]
        constructor
        · intro h'; cases h'
        · rintro ⟨u, hu, _⟩; exact absurd hu.symm hp

theorem Within.trans {a b c : List Char} (h1 : Within a b) (h2 : Within b c) : Within a c := by
  obtain ⟨s, t, rfl⟩ := h1
  obtain ⟨u, v, rfl⟩ := h2
  exact ⟨u ++ s, t ++ v, by simp⟩

theorem within_drop (l : List Char) (k : ℕ) : Within (l.drop k) l :=
  ⟨l.take k, [], by simp⟩

theorem within_take (l : List Char) (k : ℕ) : Within (l.take k) l :=
  ⟨[], l.drop k, by simp⟩

theorem within_dropWhile (l : List Char) (p : Char → Bool) : Within (l.dropWhile p) l :=
  ⟨l.takeWhile p, [], by simp [List.takeWhile_append_dropWhile]⟩

theorem within_reverse {a b : List Char} (h : Within a b) : Within a.reverse b.reverse := by
  obtain ⟨s, t, rfl⟩ := h
  exact ⟨t.reverse, s.reverse, by simp⟩

theorem within_pyStrip (l : List Char) : Within (pyStrip l) l := by
  have h1 : Within ((l.dropWhile isPySpace).reverse.dropWhile isPySpace).reverse
      (l.dropWhile isPySpace).reverse.reverse :=
    within_reverse (within_dropWhile _ _)
  rw [List.reverse_reverse] at h1
  exact h1.trans (within_dropWhile l isPySpace)

theorem findSubAux_isSome (pat : List Char) :
    ∀ (hay : List Char) (i : ℕ),
      (findSubAux pat hay i).isSome = true ↔ ∃ u v, hay = u ++ pat ++ v := by
  intro hay
  induction hay with
  | nil =>
    intro i
    simp only [findSubAux]
    by_cases hl : leadsWith pat [] = true
    · obtain ⟨u, hu⟩ := (leadsWith_iff pat []).mp hl
      have hp : pat = [] := by
        cases pat with
        | nil => rfl
        | cons a t => cases hu
      subst hp
      simp only [if_pos hl, Option.isSome_some, true_iff]
      exact ⟨[], [], rfl⟩
    · simp only [if_neg hl, Option.isSome_none, Bool.false_eq_true, false_iff]
      rintro ⟨u, v, huv⟩
      apply hl
      rw [leadsWith_iff]
      rcases List.append_eq_nil.mp huv.symm with ⟨h1, h2⟩
      rcases List.append_eq_nil.mp h1 with ⟨_, h3⟩
      exact ⟨[], by simp [h3]⟩
  | cons c t ih =>
    intro i
    simp only [findSubAux]
    by_cases hl : leadsWith pat (c :: t) = true
    · obtain ⟨u, hu⟩ := (leadsWith_iff pat (c :: t)).mp hl
      simp only [if_pos hl, Option.isSome_some, true_iff]
      exact ⟨[], u, by simpa using hu⟩
    · simp only [if_neg hl, ih (i + 1)]
      constructor
      · rintro ⟨u, v, huv⟩
        exact ⟨c :: u, v, by simp [huv]⟩
      · rintro ⟨u, v, huv⟩
        cases u with
        | nil =>
          exfalso
          apply hl
          rw [leadsWith_iff]
          exact ⟨v, by simpa using huv⟩
        | cons a u2 =>
          injection huv with h1 h2
          exact ⟨u2, v, h2⟩

theorem containsSub_iff (hay pat : List Char) :
    containsSub hay pat = true ↔ Within pat hay := by
  unfold containsSub findSub?
  exact findSubAux_isSome pat hay 0

theorem contains_mono {seg l pat : List Char} (hw : Within seg l)
    (h : containsSub seg pat = true) : containsSub l pat = true := by
  rw [containsSub_iff] at h ⊢
  exact h.trans hw

theorem contains_false_mono {seg l pat : List Char} (hw : Within seg l)
    (h : containsSub l pat = false) : containsSub seg pat = false := by
  cases hc : containsSub seg pat with
  | false => rfl
  | true => rw [contains_mono hw hc] at h; cases h

/-- The keyword windows inspected by the extraction are segments of the reply. -/
theorem window_within (a : List Char) (k m j : ℕ) :
    Within ((pyStrip ((a.drop k).take m)).take j) a :=
  (within_take _ j).trans ((within_pyStrip _).trans
    ((within_take _ m).trans (within_drop a k)))

/- ===== Lemmas about the extraction functions ===== -/

theorem recKeyOf_cases (part : List Char) :
    recKeyOf part = none ∨ recKeyOf part = some "BUY" ∨
      recKeyOf part = some "SELL" ∨ recKeyOf part = some "HOLD" := by
  unfold recKeyOf
  split_ifs <;> simp

theorem confKeyOf_cases (part : List Char) :
    confKeyOf part = none ∨ confKeyOf part = some "HIGH" ∨
      confKeyOf part = some "MEDIUM" ∨ confKeyOf part = some "LOW" := by
  unfold confKeyOf
  split_ifs <;> simp

theorem tryRecPattern_cases (a pat : List Char) :
    tryRecPattern a pat = none ∨ tryRecPattern a pat = some "BUY" ∨
      tryRecPattern a pat = some "SELL" ∨ tryRecPattern a pat = some "HOLD" := by
  unfold tryRecPattern
  cases findSub? (toUpperL a) (toUpperL pat) with
  | none => left; rfl
  | some idx => exact recKeyOf_cases _

theorem tryConfPattern_cases (a pat : List Char) :
    tryConfPattern a pat = none ∨ tryConfPattern a pat = some "HIGH" ∨
      tryConfPattern a pat = some "MEDIUM" ∨ tryConfPattern a pat = some "LOW" := by
  unfold tryConfPattern
  cases findSub? (toUpperL a) (toUpperL pat) with
  | none => left; rfl
  | some idx => exact confKeyOf_cases _

theorem extractRecommendation_mem (a : List Char) :
    extractRecommendation a = "BUY" ∨ extractRecommendation a = "SELL" ∨
      extractRecommendation a = "HOLD" := by
  unfold extractRecommendation
  rcases tryRecPattern_cases a recPat1 with h1 | h1 | h1 | h1 <;> rw [h1] <;>
    try simp
  rcases tryRecPattern_cases a recPat2 with h2 | h2 | h2 | h2 <;> rw [h2] <;>
    try simp
  rcases tryRecPattern_cases a recPat3 with h3 | h3 | h3 | h3 <;> rw [h3] <;> simp

theorem extractConfidence_mem (a : List Char) :
    extractConfidence a = "HIGH" ∨ extractConfidence a = "MEDIUM" ∨
      extractConfidence a = "LOW" := by
  unfold extractConfidence
  rcases tryConfPattern_cases a confPat1 with h1 | h1 | h1 | h1 <;> rw [h1] <;>
    try simp
  rcases tryConfPattern_cases a confPat2 with h2 | h2 | h2 | h2 <;> rw [h2] <;>
    try simp
  rcases tryConfPattern_cases a confPat3 with h3 | h3 | h3 | h3 <;> rw [h3] <;> simp

theorem tryRecPattern_none_of_nokeys (a pat : List Char)
    (hB : containsSub a "BUY".toList = false)
    (hS : containsSub a "SELL".toList = false)
    (hH : containsSub a "HOLD".toList = false) :
    tryRecPattern a pat = none := by
  cases hf : findSub? (toUpperL a) (toUpperL pat) with
  | none => simp [tryRecPattern, hf]
  | some idx =>
    have hw := window_within a (idx + pat.length) 100 30
    simp only [tryRecPattern, hf, recKeyOf]
    rw [contains_false_mono hw hB, contains_false_mono hw hS, contains_false_mono hw hH]
    simp

theorem tryConfPattern_none_of_nokeys (a pat : List Char)
    (hH : containsSub a "HIGH".toList = false)
    (hM : containsSub a "MEDIUM".toList = false)
    (hL : containsSub a "LOW".toList = false) :
    tryConfPattern a pat = none := by
  cases hf : findSub? (toUpperL a) (toUpperL pat) with
  | none => simp [tryConfPattern, hf]
  | some idx =>
    have hw := window_within a (idx + pat.length) 50 15
    simp only [tryConfPattern, hf, confKeyOf]
    rw [contains_false_mono hw hH, contains_false_mono hw hM, contains_false_mono hw hL]
    simp

theorem tryRecPattern_none_of_noheader (a pat : List Char)
    (hpat : Within "RECOMMENDATION".toList (toUpperL pat))
    (h : containsSub (toUpperL a) "RECOMMENDATION".toList = false) :
    tryRecPattern a pat = none := by
  unfold tryRecPattern
  cases hf : findSub? (toUpperL a) (toUpperL pat) with
  | none => rfl
  | some idx =>
    exfalso
    have hc : containsSub (toUpperL a) (toUpperL pat) = true := by
      unfold containsSub
      rw [hf]
      rfl
    have hww : Within "RECOMMENDATION".toList (toUpperL a) :=
      hpat.trans ((containsSub_iff _ _).mp hc)
    rw [(containsSub_iff _ _).mpr hww] at h
    cases h

theorem tryConfPattern_none_of_noheader (a pat : List Char)
    (hpat : Within "CONFIDENCE".toList (toUpperL pat))
    (h : containsSub (toUpperL a) "CONFIDENCE".toList = false) :
    tryConfPattern a pat = none := by
  unfold tryConfPattern
  cases hf : findSub? (toUpperL a) (toUpperL pat) with
  | none => rfl
  | some idx =>
    exfalso
    have hc : containsSub (toUpperL a) (toUpperL pat) = true := by
      unfold containsSub
      rw [hf]
      rfl
    have hww : Within "CONFIDENCE".toList (toUpperL a) :=
      hpat.trans ((containsSub_iff _ _).mp hc)
    rw [(containsSub_iff _ _).mpr hww] at h
    cases h

/- ===== Lemmas about the indicator arithmetic ===== -/

theorem length_deltasOf (l : List ℚ) : (deltasOf l).length = l.length - 1 := by
  simp [deltasOf]

theorem deltasOf_cons_cons (a b : ℚ) (t : List ℚ) :
    deltasOf (a :: b :: t) = (b - a) :: deltasOf (b :: t) := rfl

theorem deltasOf_drop (k : ℕ) : ∀ l : List ℚ, (deltasOf l).drop k = deltasOf (l.drop k) := by
  induction k with
  | zero => intro l; simp
  | succ k ih =>
    intro l
    cases l with
    | nil => simp [deltasOf]
    | cons a t =>
      cases t with
      | nil => simp [deltasOf]
      | cons b t2 =>
        rw [deltasOf_cons_cons, List.drop_succ_cons, List.drop_succ_cons, ih]

theorem chain'_deltas_neg : ∀ l : List ℚ,
    List.Chain' (fun x y => y < x) l → ∀ d ∈ deltasOf l, d < 0 := by
  intro l
  induction l with
  | nil => intro _ d hd; simp [deltasOf] at hd
  | cons a t ih =>
    cases t with
    | nil => intro _ d hd; simp [deltasOf] at hd
    | cons b t2 =>
      intro hc d hd
      rw [deltasOf_cons_cons] at hd
      rw [List.chain'_cons] at hc
      rcases List.mem_cons.mp hd with rfl | hd2
      · linarith [hc.1]
      · exact ih hc.2 d hd2

theorem length_lastK (l : List α) (k : ℕ) (h : k ≤ l.length) : (lastK k l).length = k := by
  unfold lastK
  rw [List.length_drop]
  omega

theorem lastK_cons_of_le (x : ℚ) (L : List ℚ) (k : ℕ) (h : k ≤ L.length) :
    lastK k (x :: L) = lastK k L := by
  unfold lastK
  have he : (x :: L).length - k = (L.length - k) + 1 := by
    simp
    omega
  rw [he, List.drop_succ_cons]

theorem lastK_map (f : ℚ → ℚ) (l : List ℚ) (k : ℕ) :
    lastK k (l.map f) = (lastK k l).map f := by
  unfold lastK
  rw [List.length_map, List.map_drop]

theorem lastK_deltasOf (closes : List ℚ) :
    lastK 14 (deltasOf closes) = deltasOf (lastK 15 closes) := by
  unfold lastK
  rw [length_deltasOf, deltasOf_drop]
  have he : closes.length - 1 - 14 = closes.length - 15 := by omega
  rw [he]

theorem gainList_nonneg (closes : List ℚ) : ∀ x ∈ gainList closes, 0 ≤ x := by
  intro x hx
  rcases List.mem_cons.mp hx with rfl | hx2
  · exact le_refl 0
  · obtain ⟨d, _, rfl⟩ := List.mem_map.mp hx2
    by_cases hd : 0 < d
    · simp [hd]
      exact le_of_lt hd
    · simp [hd]

theorem lossList_nonneg (closes : List ℚ) : ∀ x ∈ lossList closes, 0 ≤ x := by
  intro x hx
  rcases List.mem_cons.mp hx with rfl | hx2
  · exact le_refl 0
  · obtain ⟨d, _, rfl⟩ := List.mem_map.mp hx2
    by_cases hd : d < 0
    · simp [hd]
      linarith
    · simp [hd]

theorem meanQ_nonneg (l : List ℚ) (h : ∀ x ∈ l, 0 ≤ x) : 0 ≤ meanQ l :=
  div_nonneg (List.sum_nonneg h) (Nat.cast_nonneg _)

theorem meanQ_pos (l : List ℚ) (hne : l ≠ []) (h : ∀ x ∈ l, 0 < x) : 0 < meanQ l :=
  div_pos (List.sum_pos l h hne) (by exact_mod_cast List.length_pos.mpr hne)

theorem meanQ_zero (l : List ℚ) (h : ∀ x ∈ l, x = 0) : meanQ l = 0 := by
  unfold meanQ
  rw [List.sum_eq_zero h, zero_div]

theorem rollingMean_getLastD (k : ℕ) (xs : List ℚ) (h0 : xs ≠ []) (hk : k ≤ xs.length) :
    (rollingMean k xs).getLastD none = some (meanQ (lastK k xs)) := by
  obtain ⟨m, hm⟩ : ∃ m, xs.length = m + 1 :=
    ⟨xs.length - 1, by have := List.length_pos.mpr h0; omega⟩
  unfold rollingMean lastK
  rw [hm, List.range_succ, List.map_append]
  simp only [List.map_cons, List.map_nil]
  rw [List.getLastD_concat]
  have hkm : k ≤ m + 1 := by omega
  rw [if_pos hkm]
  have ht : (xs.drop (m + 1 - k)).take k = xs.drop (m + 1 - k) :=
    List.take_of_length_le (by rw [List.length_drop, hm]; omega)
  rw [ht]

theorem latestAvgGain_eq (closes : List ℚ) (h : 15 ≤ closes.length) :
    latestAvgGain closes = some (meanQ (lastK 14 (gainList closes))) := by
  unfold latestAvgGain
  apply rollingMean_getLastD
  · exact List.cons_ne_nil _ _
  · unfold gainList
    simp [length_deltasOf]
    omega

theorem latestAvgLoss_eq (closes : List ℚ) (h : 15 ≤ closes.length) :
    latestAvgLoss closes = some (meanQ (lastK 14 (lossList closes))) := by
  unfold latestAvgLoss
  apply rollingMean_getLastD
  · exact List.cons_ne_nil _ _
  · unfold lossList
    simp [length_deltasOf]
    omega

theorem latestRSI_eq (closes : List ℚ) (g l : ℚ)
    (hg : latestAvgGain closes = some g) (hl : latestAvgLoss closes = some l) :
    latestRSI closes = rsiFromRS (FVal.div (FVal.val g) (FVal.val l)) := by
  unfold latestRSI
  rw [hg, hl]

theorem FVal.div_val_val (a b : ℚ) (hb : b ≠ 0) :
    FVal.div (FVal.val a) (FVal.val b) = FVal.val (a / b) := by
  simp [FVal.div, hb]

theorem rsiFromRS_val (x : ℚ) (hx : 1 + x ≠ 0) :
    rsiFromRS (FVal.val x) = FVal.val (100 - 100 / (1 + x)) := by
  unfold rsiFromRS
  rw [show FVal.add (FVal.val 1) (FVal.val x) = FVal.val (1 + x) from rfl]
  rw [FVal.div_val_val _ _ hx]
  show FVal.add (FVal.val 100) (FVal.neg (FVal.val (100 / (1 + x)))) = _
  rw [show FVal.neg (FVal.val (100 / (1 + x))) = FVal.val (-(100 / (1 + x))) from rfl]
  show FVal.val (100 + -(100 / (1 + x))) = _
  rw [← sub_eq_add_neg]

theorem rsiFromRS_posdiv_zero (g : ℚ) (hg : 0 < g) :
    rsiFromRS (FVal.div (FVal.val g) (FVal.val 0)) = FVal.val 100 := by
  have h1 : FVal.div (FVal.val g) (FVal.val 0) = FVal.inf := by
    simp [FVal.div, ne_of_gt hg, hg]
  rw [h1]
  show FVal.sub (FVal.val 100) (FVal.div (FVal.val 100) (FVal.add (FVal.val 1) FVal.inf)) =
    FVal.val 100
  show FVal.sub (FVal.val 100) (FVal.div (FVal.val 100) FVal.inf) = FVal.val 100
  show FVal.sub (FVal.val 100) (FVal.val 0) = FVal.val 100
  show FVal.val (100 + -0) = FVal.val 100
  norm_num

theorem latestAvgGain_nonneg (closes : List ℚ) (g : ℚ) (h : 15 ≤ closes.length)
    (hg : latestAvgGain closes = some g) : 0 ≤ g := by
  rw [latestAvgGain_eq closes h] at hg
  have he := Option.some.inj hg
  rw [← he]
  exact meanQ_nonneg _ (fun x hx => gainList_nonneg closes x (List.mem_of_mem_drop hx))

theorem latestAvgLoss_nonneg (closes : List ℚ) (l : ℚ) (h : 15 ≤ closes.length)
    (hl : latestAvgLoss closes = some l) : 0 ≤ l := by
  rw [latestAvgLoss_eq closes h] at hl
  have he := Option.some.inj hl
  rw [← he]
  exact meanQ_nonneg _ (fun x hx => lossList_nonneg closes x (List.mem_of_mem_drop hx))

/-- Core fact behind the amended RSI range claim: whenever the latest
average gain and average loss are not both zero, the RSI is a finite value
in `[0, 100]`. -/
theorem rsi_inRange_of_not_flat (closes : List ℚ) (h15 : 15 ≤ closes.length)
    (hnz : ¬(latestAvgGain closes = some 0 ∧ latestAvgLoss closes = some 0)) :
    FVal.inRange (latestRSI closes) 0 100 = true := by
  have hg := latestAvgGain_eq closes h15
  have hl := latestAvgLoss_eq closes h15
  have hg0 : 0 ≤ meanQ (lastK 14 (gainList closes)) :=
    meanQ_nonneg _ (fun x hx => gainList_nonneg closes x (List.mem_of_mem_drop hx))
  have hl0 : 0 ≤ meanQ (lastK 14 (lossList closes)) :=
    meanQ_nonneg _ (fun x hx => lossList_nonneg closes x (List.mem_of_mem_drop hx))
  rw [latestRSI_eq closes _ _ hg hl]
  by_cases hlz : meanQ (lastK 14 (lossList closes)) = 0
  · have hgz : meanQ (lastK 14 (gainList closes)) ≠ 0 := by
      intro hz
      exact hnz ⟨by rw [hg, hz], by rw [hl, hlz]⟩
    rw [hlz, rsiFromRS_posdiv_zero _ (lt_of_le_of_ne hg0 (Ne.symm hgz))]
    simp [FVal.inRange]
  · have hlpos : 0 < meanQ (lastK 14 (lossList closes)) :=
      lt_of_le_of_ne hl0 (Ne.symm hlz)
    rw [FVal.div_val_val _ _ hlz]
    have hx : 0 ≤ meanQ (lastK 14 (gainList closes)) / meanQ (lastK 14 (lossList closes)) :=
      div_nonneg hg0 (le_of_lt hlpos)
    have h1x : (0:ℚ) < 1 + meanQ (lastK 14 (gainList closes)) / meanQ (lastK 14 (lossList closes)) := by
      linarith
    rw [rsiFromRS_val _ (ne_of_gt h1x)]
    have hdle : 100 / (1 + meanQ (lastK 14 (gainList closes)) / meanQ (lastK 14 (lossList closes))) ≤ 100 :=
      div_le_self (by norm_num) (by linarith)
    have hdpos : 0 < 100 / (1 + meanQ (lastK 14 (gainList closes)) / meanQ (lastK 14 (lossList closes))) := by
      positivity
    simp only [FVal.inRange, decide_eq_true_eq]
    constructor
    · linarith
    · linarith

/-- Core fact behind the amended RSI edge-case claim, decreasing branch:
when the last 15 closes strictly decrease, the latest average gain is 0,
the latest average loss is positive, and the RSI is exactly 0. -/
theorem latestRSI_strict_decrease (closes : List ℚ) (h15 : 15 ≤ closes.length)
    (hchain : List.Chain' (fun x y => y < x) (lastK 15 closes)) :
    latestRSI closes = FVal.val 0 := by
  have hg := latestAvgGain_eq closes h15
  have hl := latestAvgLoss_eq closes h15
  have hlen_d : (deltasOf closes).length = closes.length - 1 := length_deltasOf closes
  have hgl : lastK 14 (gainList closes) =
      (deltasOf (lastK 15 closes)).map (fun d => if 0 < d then d else 0) := by
    unfold gainList
    rw [lastK_cons_of_le _ _ _ (by rw [List.length_map, hlen_d]; omega)]
    rw [lastK_map, lastK_deltasOf]
  have hll : lastK 14 (lossList closes) =
      (deltasOf (lastK 15 closes)).map (fun d => if d < 0 then -d else 0) := by
    unfold lossList
    rw [lastK_cons_of_le _ _ _ (by rw [List.length_map, hlen_d]; omega)]
    rw [lastK_map, lastK_deltasOf]
  have hneg : ∀ d ∈ deltasOf (lastK 15 closes), d < 0 := chain'_deltas_neg _ hchain
  have hlen15 : (lastK 15 closes).length = 15 := length_lastK _ _ (by omega)
  have hgz : meanQ (lastK 14 (gainList closes)) = 0 := by
    rw [hgl]
    apply meanQ_zero
    intro x hx
    obtain ⟨d, hd, rfl⟩ := List.mem_map.mp hx
    rw [if_neg (not_lt.mpr (le_of_lt (hneg d hd)))]
  have hlpos : 0 < meanQ (lastK 14 (lossList closes)) := by
    rw [hll]
    apply meanQ_pos
    · have hmap : ((deltasOf (lastK 15 closes)).map (fun d => if d < 0 then -d else 0)).length = 14 := by
        rw [List.length_map, length_deltasOf, hlen15]
      intro he
      rw [he] at hmap
      simp at hmap
    · intro x hx
      obtain ⟨d, hd, rfl⟩ := List.mem_map.mp hx
      rw [if_pos (hneg d hd)]
      linarith [hneg d hd]
  rw [latestRSI_eq closes _ _ hg hl, hgz]
  rw [FVal.div_val_val _ _ (ne_of_gt hlpos), zero_div]
  rw [rsiFromRS_val 0 (by norm_num)]
  norm_num

/- ===== Lemmas about the chart-data assembly ===== -/

theorem findIdxAux_nodup : ∀ (l : List ℕ) (i : ℕ) (h : i < l.length) (j : ℕ), l.Nodup →
    findIdxAux (fun x => decide (x = l.get ⟨i, h⟩)) l j = some (j + i) := by
  intro l
  induction l with
  | nil => intro i h; simp at h
  | cons a t ih =>
    intro i h j hnd
    cases i with
    | zero => simp [findIdxAux]
    | succ i2 =>
      have h2 : i2 < t.length := by simpa using h
      have hget : (a :: t).get ⟨i2 + 1, h⟩ = t.get ⟨i2, h2⟩ := rfl
      have hmem : t.get ⟨i2, h2⟩ ∈ t := List.get_mem t i2 h2
      have hne : ¬(a = t.get ⟨i2, h2⟩) := by
        intro he
        exact (List.nodup_cons.mp hnd).1 (he ▸ hmem)
      simp only [findIdxAux, hget]
      rw [if_neg (by simpa using hne)]
      rw [ih i2 h2 (j + 1) (List.nodup_cons.mp hnd).2]
      congr 1
      omega

theorem lookupMA_self (dates : List ℕ) (col : List (Option ℚ)) (i : ℕ)
    (h : i < dates.length) (hnd : dates.Nodup) :
    lookupMA dates col (dates.get ⟨i, h⟩) = col.getD i none := by
  unfold lookupMA findIdxQ
  rw [findIdxAux_nodup dates i h 0 hnd]
  show col.getD (0 + i) none = col.getD i none
  rw [Nat.zero_add]

theorem rollingMean_getD_early (k : ℕ) (xs : List ℚ) (i : ℕ)
    (h : i < xs.length) (hik : i + 1 < k) :
    (rollingMean k xs).getD i none = none := by
  unfold rollingMean
  rw [List.getD_eq_getElem?_getD, List.getElem?_map, List.getElem?_range h]
  have hn : ¬ (k ≤ i + 1) := by omega
  simp [hn]

/- ===== Claim theorems ===== -/

/-- C1 counterexample: the claim says that whichever of BUY/SELL/HOLD appears
first (in position) within the first 30 characters of the window wins. On the
reply "RECOMMENDATION: SELL or BUY now" the first-appearing keyword is SELL,
but the code returns BUY because the keywords are tested in the fixed order
BUY, SELL, HOLD. -/
theorem claim1_counterexample :
    extractRecommendation "RECOMMENDATION: SELL or BUY now".toList = "BUY" ∧
    extractRecommendationFirst "RECOMMENDATION: SELL or BUY now".toList = "SELL" := by
  constructor <;> decide

/-- C1 (amended): after locating the first occurrence of "RECOMMENDATION:" in
the case-folded reply, the keywords are tested for containment in the first 30
characters of the stripped 100-character window in the fixed priority order
BUY, then SELL, then HOLD (not by position of first appearance); the matched
keyword determines the recommendation. -/
theorem claim1_amended_priority (a : List Char) (idx : ℕ)
    (hf : findSub? (toUpperL a) recPat1 = some idx) :
    (containsSub ((pyStrip ((a.drop (idx + recPat1.length)).take 100)).take 30)
        "BUY".toList = true → extractRecommendation a = "BUY") ∧
    (containsSub ((pyStrip ((a.drop (idx + recPat1.length)).take 100)).take 30)
        "BUY".toList = false →
      containsSub ((pyStrip ((a.drop (idx + recPat1.length)).take 100)).take 30)
        "SELL".toList = true → extractRecommendation a = "SELL") ∧
    (containsSub ((pyStrip ((a.drop (idx + recPat1.length)).take 100)).take 30)
        "BUY".toList = false →
      containsSub ((pyStrip ((a.drop (idx + recPat1.length)).take 100)).take 30)
        "SELL".toList = false →
      containsSub ((pyStrip ((a.drop (idx + recPat1.length)).take 100)).take 30)
        "HOLD".toList = true → extractRecommendation a = "HOLD") := by
  have hup : toUpperL recPat1 = recPat1 := by decide
  refine ⟨?_, ?_, ?_⟩
  · intro hB
    have ht : tryRecPattern a recPat1 = some "BUY" := by
      simp only [tryRecPattern, hup, hf, recKeyOf]
      rw [hB]
      simp
    simp only [extractRecommendation, ht]
  · intro hB hS
    have ht : tryRecPattern a recPat1 = some "SELL" := by
      simp only [tryRecPattern, hup, hf, recKeyOf]
      rw [hB, hS]
      simp
    simp only [extractRecommendation, ht]
  · intro hB hS hH
    have ht : tryRecPattern a recPat1 = some "HOLD" := by
      simp only [tryRecPattern, hup, hf, recKeyOf]
      rw [hB, hS, hH]
      simp
    simp only [extractRecommendation, ht]

/-- C1 witness: a reply carrying "**RECOMMENDATION: SELL**" followed by an
unrelated lowercase mention of "buy" yields SELL. -/
theorem claim1_amended_priority_witness :
    extractRecommendation
      "**RECOMMENDATION: SELL**\nInvestors should not buy more shares at this time.".toList =
      "SELL" :=
  (claim1_amended_priority _ 2 (by decide)).2.1 (by decide) (by decide)

/-- C2: the extracted recommendation is always one of BUY/SELL/HOLD and the
extracted confidence one of HIGH/MEDIUM/LOW (never empty); when the reply has
no recognizable recommendation (resp. confidence) header at all, the defaults
HOLD (resp. LOW) are returned. -/
theorem claim2_extraction_invariant (a : List Char) :
    (extractRecommendation a = "BUY" ∨ extractRecommendation a = "SELL" ∨
      extractRecommendation a = "HOLD") ∧
    (extractConfidence a = "HIGH" ∨ extractConfidence a = "MEDIUM" ∨
      extractConfidence a = "LOW") ∧
    (containsSub (toUpperL a) "RECOMMENDATION".toList = false →
      extractRecommendation a = "HOLD") ∧
    (containsSub (toUpperL a) "CONFIDENCE".toList = false →
      extractConfidence a = "LOW") ∧
    extractRecommendation a ≠ "" ∧ extractConfidence a ≠ "" := by
  refine ⟨extractRecommendation_mem a, extractConfidence_mem a, ?_, ?_, ?_, ?_⟩
  · intro h
    have h1 := tryRecPattern_none_of_noheader a recPat1 ⟨[], ":".toList, by decide⟩ h
    have h2 := tryRecPattern_none_of_noheader a recPat2
      ⟨"**".toList, ":**".toList, by decide⟩ h
    have h3 := tryRecPattern_none_of_noheader a recPat3 ⟨[], [], by decide⟩ h
    simp [extractRecommendation, h1, h2, h3]
  · intro h
    have h1 := tryConfPattern_none_of_noheader a confPat1 ⟨[], ":".toList, by decide⟩ h
    have h2 := tryConfPattern_none_of_noheader a confPat2
      ⟨"**".toList, ":**".toList, by decide⟩ h
    have h3 := tryConfPattern_none_of_noheader a confPat3 ⟨[], [], by decide⟩ h
    simp [extractConfidence, h1, h2, h3]
  · rcases extractRecommendation_mem a with h | h | h <;> simp [h]
  · rcases extractConfidence_mem a with h | h | h <;> simp [h]

/-- C2 witness: a reply with no recognizable headers yields the default pair
HOLD/LOW. -/
theorem claim2_extraction_invariant_witness :
    extractRecommendation "No signal here.".toList = "HOLD" ∧
    extractConfidence "No signal here.".toList = "LOW" :=
  ⟨(claim2_extraction_invariant "No signal here.".toList).2.2.1 (by decide),
   (claim2_extraction_invariant "No signal here.".toList).2.2.2.1 (by decide)⟩

set_option maxRecDepth 1000000 in
/-- C3 counterexample: the claim says that whenever the 14-period average loss
is zero the RSI resolves to 100; but on a 50-point constant series the average
loss is zero and the RSI is NaN (0/0), not 100 (still without an exception). -/
theorem claim3_counterexample :
    50 ≤ (List.replicate 50 (1:ℚ)).length ∧
    latestAvgLoss (List.replicate 50 (1:ℚ)) = some 0 ∧
    latestRSI (List.replicate 50 (1:ℚ)) = FVal.nan ∧
    latestRSI (List.replicate 50 (1:ℚ)) ≠ FVal.val 100 := by
  with_unfolding_all decide

/-- C3 (amended): for a series of at least 50 points, when the 14-period
average loss is zero and the average gain is nonzero the RSI resolves to 100
(no exception); when the last 15 closes are strictly decreasing the RSI is 0.
(When gains and losses are both zero the RSI is NaN instead.) -/
theorem claim3_amended_rsi_edge (closes : List ℚ) (h50 : 50 ≤ closes.length) :
    (∀ g, latestAvgGain closes = some g → latestAvgLoss closes = some 0 → g ≠ 0 →
      latestRSI closes = FVal.val 100) ∧
    (List.Chain' (fun x y => y < x) (lastK 15 closes) →
      latestRSI closes = FVal.val 0) := by
  constructor
  · intro g hg hl hgz
    have hg0 : 0 ≤ g := latestAvgGain_nonneg closes g (by omega) hg
    rw [latestRSI_eq closes g 0 hg hl]
    exact rsiFromRS_posdiv_zero g (lt_of_le_of_ne hg0 (Ne.symm hgz))
  · intro hchain
    exact latestRSI_strict_decrease closes (by omega) hchain

set_option maxRecDepth 1000000 in
/-- C3 witness: a series whose last 15 closes strictly decrease has RSI 0, and
a series whose last 15 closes strictly increase (zero average loss, positive
average gain) has RSI 100. -/
theorem claim3_amended_rsi_edge_witness :
    latestRSI (List.replicate 35 (100:ℚ) ++
      [15, 14, 13, 12, 11, 10, 9, 8, 7, 6, 5, 4, 3, 2, 1]) = FVal.val 0 ∧
    latestRSI (List.replicate 35 (1:ℚ) ++
      [2, 3, 4, 5, 6, 7, 8, 9, 10, 11, 12, 13, 14, 15, 16]) = FVal.val 100 := by
  constructor
  · apply (claim3_amended_rsi_edge _ (by decide)).2
    show List.Chain' (fun x y => y < x)
      ([15, 14, 13, 12, 11, 10, 9, 8, 7, 6, 5, 4, 3, 2, 1] : List ℚ)
    norm_num [List.chain'_cons]
  · exact (claim3_amended_rsi_edge _ (by decide)).1 1 (by with_unfolding_all decide)
      (by with_unfolding_all decide) (by norm_num)

set_option maxRecDepth 1000000 in
/-- C4 counterexample: the claim says the latest RSI of any 50-point series
lies in [0, 100]; on a constant 50-point series the RSI is NaN, which is not a
finite value in [0, 100]. -/
theorem claim4_counterexample :
    50 ≤ (List.replicate 50 (2:ℚ)).length ∧
    FVal.inRange (latestRSI (List.replicate 50 (2:ℚ))) 0 100 = false := by
  with_unfolding_all decide

/-- C4 (amended): for a series of at least 50 points whose latest 14-period
average gain and average loss are not both zero, the latest RSI is a finite
value in the closed interval [0, 100]. -/
theorem claim4_amended_rsi_range (closes : List ℚ) (h50 : 50 ≤ closes.length)
    (hnz : ¬(latestAvgGain closes = some 0 ∧ latestAvgLoss closes = some 0)) :
    FVal.inRange (latestRSI closes) 0 100 = true :=
  rsi_inRange_of_not_flat closes (by omega) hnz

set_option maxRecDepth 1000000 in
/-- C4 witness: an eventually increasing 50-point series has its RSI inside
[0, 100]. -/
theorem claim4_amended_rsi_range_witness :
    FVal.inRange (latestRSI (List.replicate 35 (1:ℚ) ++
      [2, 3, 4, 5, 6, 7, 8, 9, 10, 11, 12, 13, 14, 15, 16])) 0 100 = true :=
  claim4_amended_rsi_range _ (by decide) (by with_unfolding_all decide)

/-- C5: when the price series has fewer than 50 points the stage still
succeeds (and still calls the text-generation service), and the
technical-indicator output is exactly the one-field explanatory error
placeholder. -/
theorem claim5_insufficient_history (input : AnalysisInput) (llm : List Char)
    (hs : input.success = true) (hne : input.historical_data ≠ [])
    (hlen : input.historical_data.length < 50) :
    (processAnalysis input llm).1.isOk = true ∧
    (processAnalysis input llm).2 = true ∧
    (processAnalysis input llm).1.techOf =
      some (TechResult.insufficient "Not enough data points for technical analysis") := by
  have hie : input.historical_data.isEmpty = false := by
    cases hhd : input.historical_data with
    | nil => exact absurd hhd hne
    | cons a t => rfl
  have hn : ¬(50 ≤ (input.historical_data.map PricePoint.close).length) := by
    rw [List.length_map]
    omega
  refine ⟨?_, ?_, ?_⟩
  · simp [processAnalysis, hs, hie, AnalysisOutcome.isOk]
  · simp [processAnalysis, hs, hie]
  · simp [processAnalysis, hs, hie, AnalysisOutcome.techOf, computeTechnical, hn]
    omega

/-- C5 witness: a 49-point series produces the error placeholder while the
stage succeeds. -/
theorem claim5_insufficient_history_witness :
    (processAnalysis
      (⟨true, "ACME", "1y", "1 Year", List.replicate 49 ⟨0, 1, 1⟩, []⟩ : AnalysisInput)
      []).1.techOf =
      some (TechResult.insufficient "Not enough data points for technical analysis") :=
  (claim5_insufficient_history _ [] rfl (by decide) (by decide)).2.2

/-- C6: if the input's success flag is not true, the Analysis stage fails with
"Invalid input data"; if the flag is true but the price series is empty even
after the chart-data fallback, it fails with "No historical data available for
analysis"; in both cases the text-generation service is not invoked (the
second component of the outcome records whether it was called). -/
theorem claim6_precondition_checks (input : AnalysisInput) (llm : List Char) :
    (input.success = false →
      processAnalysis input llm = (AnalysisOutcome.err "Invalid input data", false)) ∧
    (input.success = true → input.historical_data = [] → input.chart_data = [] →
      processAnalysis input llm =
        (AnalysisOutcome.err "No historical data available for analysis", false)) := by
  constructor
  · intro hs
    simp [processAnalysis, hs]
  · intro hs h1 h2
    simp [processAnalysis, hs, h1, h2]

/-- C6 witness: a failed input bundle and an empty-series bundle both fail
with the documented messages, without invoking the text-generation service. -/
theorem claim6_precondition_checks_witness :
    processAnalysis (⟨false, "", "", "", [], []⟩ : AnalysisInput) [] =
      (AnalysisOutcome.err "Invalid input data", false) ∧
    processAnalysis (⟨true, "", "", "", [], []⟩ : AnalysisInput) [] =
      (AnalysisOutcome.err "No historical data available for analysis", false) :=
  ⟨(claim6_precondition_checks _ []).1 rfl,
   (claim6_precondition_checks _ []).2 rfl rfl rfl⟩

/-- C7: if the price/company provider reports failure the Collection stage
returns the provider's error without fetching news or fundamentals and
without invoking the text-generation service; when the provider succeeds the
stage succeeds for every news list and fundamentals value, so a news or
fundamentals failure is never converted into the fatal outcome on the main
path. -/
theorem claim7_collector_price_failure (symbol period : String)
    (table : List (String × String)) (pr : FetchResult) (news : List String)
    (fund : String) (llm : List Char) (hsym : symbol ≠ "") :
    (pr.success = false →
      processCollector symbol period table pr news fund llm =
        (CollectorOutcome.err pr.error, ⟨false, false, false⟩)) ∧
    (pr.success = true →
      (processCollector symbol period table pr news fund llm).2 = ⟨true, true, true⟩ ∧
      (processCollector symbol period table pr news fund llm).1.isOk = true) := by
  constructor
  · intro hp
    simp [processCollector, hsym, hp]
  · intro hp
    constructor <;> simp [processCollector, hsym, hp, CollectorOutcome.isOk]

/-- C7 witness: a failing provider response is propagated verbatim with no
collaborator invoked. -/
theorem claim7_collector_price_failure_witness :
    processCollector "ACME" "1y" [("1y", "1 Year")]
        ⟨false, [], "", "", "provider down"⟩ [] "" [] =
      (CollectorOutcome.err "provider down", ⟨false, false, false⟩) :=
  (claim7_collector_price_failure "ACME" "1y" [("1y", "1 Year")]
    ⟨false, [], "", "", "provider down"⟩ [] "" [] (by decide)).1 rfl

/-- C8: when the dates of the price series are distinct, the chart data has
exactly one point per original record, carrying that record's date, close and
volume; the ma20/ma50 fields hold exactly the moving-average column value at
the matching date, absent (`none`) when the columns were not computed or the
value is the NaN placeholder; in particular, in the early window (index below
19) the ma20 field is absent. -/
theorem claim8_chart_alignment (rows : List PricePoint)
    (hnd : (rows.map PricePoint.date).Nodup) :
    (buildChartData rows).length = rows.length ∧
    (∀ i, ∀ h : i < rows.length,
      (buildChartData rows)[i]? = some
        { date := rows[i].date
          close := rows[i].close
          volume := rows[i].volume
          ma20 := match chartColumns (rows.map PricePoint.close) with
                  | some (m, _) => m.getD i none
                  | none => none
          ma50 := match chartColumns (rows.map PricePoint.close) with
                  | some (_, m) => m.getD i none
                  | none => none }) ∧
    (50 ≤ rows.length → ∀ i, ∀ h : i < rows.length, i < 19 →
      ∃ p, (buildChartData rows)[i]? = some p ∧ p.ma20 = none) := by
  have hpoint : ∀ i, ∀ h : i < rows.length,
      (buildChartData rows)[i]? = some
        { date := rows[i].date
          close := rows[i].close
          volume := rows[i].volume
          ma20 := match chartColumns (rows.map PricePoint.close) with
                  | some (m, _) => m.getD i none
                  | none => none
          ma50 := match chartColumns (rows.map PricePoint.close) with
                  | some (_, m) => m.getD i none
                  | none => none } := by
    intro i h
    unfold buildChartData
    rw [List.getElem?_map, List.getElem?_eq_getElem h]
    cases hc : chartColumns (rows.map PricePoint.close) with
    | none => rfl
    | some pr =>
      obtain ⟨m20, m50⟩ := pr
      have hb2 : i < (rows.map PricePoint.date).length := by
        rw [List.length_map]
        exact h
      have hd : (rows.map PricePoint.date).get ⟨i, hb2⟩ = rows[i].date := by
        rw [List.get_eq_getElem, List.getElem_map]
      have hlk20 : lookupMA (rows.map PricePoint.date) m20 (rows[i].date) =
          m20.getD i none := by
        rw [← hd, lookupMA_self _ _ i hb2 hnd]
      have hlk50 : lookupMA (rows.map PricePoint.date) m50 (rows[i].date) =
          m50.getD i none := by
        rw [← hd, lookupMA_self _ _ i hb2 hnd]
      show some ({ date := rows[i].date, close := rows[i].close, volume := rows[i].volume,
                   ma20 := lookupMA (rows.map PricePoint.date) m20 rows[i].date,
                   ma50 := lookupMA (rows.map PricePoint.date) m50 rows[i].date } : ChartPoint) =
        some ({ date := rows[i].date, close := rows[i].close, volume := rows[i].volume,
                ma20 := m20.getD i none, ma50 := m50.getD i none } : ChartPoint)
      rw [hlk20, hlk50]
  refine ⟨by simp [buildChartData], hpoint, ?_⟩
  intro h50 i h hi19
  have hc : chartColumns (rows.map PricePoint.close) =
      some (rollingMean 20 (rows.map PricePoint.close),
            rollingMean 50 (rows.map PricePoint.close)) := by
    unfold chartColumns
    rw [if_pos (by rw [List.length_map]; exact h50)]
  refine ⟨_, hpoint i h, ?_⟩
  show (match chartColumns (rows.map PricePoint.close) with
        | some (m, _) => m.getD i none
        | none => none) = none
  rw [hc]
  exact rollingMean_getD_early 20 _ i (by rw [List.length_map]; exact h) (by omega)

/-- C8 witness: on a three-record series with distinct dates, the chart data
has three points and the second point carries the second record's fields with
both MA fields absent. -/
theorem claim8_chart_alignment_witness :
    (buildChartData [⟨0, 1, 10⟩, ⟨1, 2, 20⟩, ⟨2, 3, 30⟩]).length = 3 ∧
    (buildChartData [⟨0, 1, 10⟩, ⟨1, 2, 20⟩, ⟨2, 3, 30⟩])[1]? =
      some ⟨1, 2, 20, none, none⟩ := by
  have h := claim8_chart_alignment [⟨0, 1, 10⟩, ⟨1, 2, 20⟩, ⟨2, 3, 30⟩] (by decide)
  refine ⟨by rw [h.1]; rfl, ?_⟩
  rw [h.2.1 1 (by decide)]
  decide

/-- C9: for a series of at least 50 points, the trend label is "uptrend"
exactly when the mean of the last 10 closes strictly exceeds the mean of the
preceding 10 closes (points 11-20 from the end), and "downtrend" otherwise,
ties included. -/
theorem claim9_trend_label (closes : List ℚ) (t : TechIndicators)
    (h50 : 50 ≤ closes.length) (ht : computeTechnical closes = TechResult.ok t) :
    (t.trend = "uptrend" ↔
      ((lastK 20 closes).take 10).sum / 10 < (lastK 10 closes).sum / 10) ∧
    (t.trend = "downtrend" ↔
      ¬(((lastK 20 closes).take 10).sum / 10 < (lastK 10 closes).sum / 10)) := by
  unfold computeTechnical at ht
  rw [if_pos h50] at ht
  have ht2 := TechResult.ok.inj ht
  have hlen10 : (lastK 10 closes).length = 10 := length_lastK _ _ (by omega)
  have hlen20 : ((lastK 20 closes).take 10).length = 10 := by
    rw [List.length_take, length_lastK _ _ (by omega)]
    omega
  have hm1 : meanQ (lastK 10 closes) = (lastK 10 closes).sum / 10 := by
    unfold meanQ
    rw [hlen10]
    norm_num
  have hm2 : meanQ ((lastK 20 closes).take 10) = ((lastK 20 closes).take 10).sum / 10 := by
    unfold meanQ
    rw [hlen20]
    norm_num
  rw [← ht2]
  show ((if meanQ ((lastK 20 closes).take 10) < meanQ (lastK 10 closes)
      then "uptrend" else "downtrend") = "uptrend" ↔ _) ∧ _
  rw [hm1, hm2]
  by_cases hcmp : ((lastK 20 closes).take 10).sum / 10 < (lastK 10 closes).sum / 10
  · rw [if_pos hcmp]
    exact ⟨by simp [hcmp], by simp [hcmp]⟩
  · rw [if_neg hcmp]
    exact ⟨by simp [hcmp], by simp [hcmp]⟩

set_option maxRecDepth 1000000 in
/-- C9 witness: on a constant 50-point series the two means tie and the trend
label is "downtrend". -/
theorem claim9_trend_label_witness :
    ({ latest_close := 3, ma20_signal := "below", ma50_signal := "below",
       rsi := FVal.nan, trend := "downtrend" } : TechIndicators).trend = "downtrend" :=
  (claim9_trend_label (List.replicate 50 (3:ℚ))
    ⟨3, "below", "below", FVal.nan, "downtrend"⟩ (by decide)
    (by with_unfolding_all decide)).2.mpr (by with_unfolding_all decide)

/-- C10: keyword matching inside the bounded window is case-sensitive even
though the header search is case-folded: a reply containing none of the
uppercase keywords BUY/SELL/HOLD/HIGH/MEDIUM/LOW (for instance one spelling
them in lowercase after a recognized header) extracts the defaults HOLD and
LOW. -/
theorem claim10_case_sensitive_defaults (a : List Char)
    (hB : containsSub a "BUY".toList = false)
    (hS : containsSub a "SELL".toList = false)
    (hH : containsSub a "HOLD".toList = false)
    (hHi : containsSub a "HIGH".toList = false)
    (hM : containsSub a "MEDIUM".toList = false)
    (hL : containsSub a "LOW".toList = false) :
    extractRecommendation a = "HOLD" ∧ extractConfidence a = "LOW" := by
  constructor
  · simp [extractRecommendation,
      tryRecPattern_none_of_nokeys a recPat1 hB hS hH,
      tryRecPattern_none_of_nokeys a recPat2 hB hS hH,
      tryRecPattern_none_of_nokeys a recPat3 hB hS hH]
  · simp [extractConfidence,
      tryConfPattern_none_of_nokeys a confPat1 hHi hM hL,
      tryConfPattern_none_of_nokeys a confPat2 hHi hM hL,
      tryConfPattern_none_of_nokeys a confPat3 hHi hM hL]

/-- C10 witness: the reply "Recommendation: buy, Confidence: high" has
recognized headers but only lowercase keywords, so extraction returns the
defaults HOLD and LOW. -/
theorem claim10_case_sensitive_defaults_witness :
    extractRecommendation "Recommendation: buy\nConfidence: high".toList = "HOLD" ∧
    extractConfidence "Recommendation: buy\nConfidence: high".toList = "LOW" :=
  claim10_case_sensitive_defaults _ (by decide) (by decide) (by decide)
    (by decide) (by decide) (by decide)

end StockAnalysis
